import Mathlib

/-!
Shallow embedding of the qr-generator payload formatting and validation
layer (`src/qr_generator/formatters.py`, `validator.py`, `generator.py`,
`history.py`) together with theorems settling the specification claims.

Python strings are modelled as Lean `String`s.  Python's `str.upper`,
`str.lower`, the regex classes `\s` and `\d` and `str.split()` are
modelled on their ASCII behaviour (`Char.toUpper`, `Char.toLower`,
ASCII whitespace, ASCII digits), which is exact on all ASCII input.
Fallible Python functions (those raising `ValidationError` or
`ValueError`) are modelled as `Except String`-valued functions carrying
the exact message built by the source.
-/

namespace QrGen

/-- Concatenation of the images of a character-to-string function over a
character list; the building block for modelling Python string methods
that act character by character. -/
def charMapConcat (f : Char → List Char) : List Char → List Char
  | [] => []
  | c :: rest => f c ++ charMapConcat f rest

/-- Model of Python's `str.replace(old, new)` for a single-character
pattern `old`: every occurrence of the character is replaced by `new`;
for a one-character pattern this per-character description is exactly
Python's semantics. -/
def pyReplaceChar (s : String) (old : Char) (new : String) : String :=
  String.mk (charMapConcat (fun c => if c = old then new.data else [c]) s.data)

/-- Model of Python's `sep.join(parts)`. -/
def pyJoin (sep : String) : List String → String
  | [] => ""
  | [x] => x
  | x :: y :: rest => x ++ sep ++ pyJoin sep (y :: rest)

/-- Embedding of the local `escape` helper of `format_wifi`
(`formatters.py` line 26): the chained `replace` calls, backslash first,
then `;`, `,`, `"`, `:`. -/
def escape (s : String) : String :=
  pyReplaceChar (pyReplaceChar (pyReplaceChar (pyReplaceChar
    (pyReplaceChar s '\\' "\\\\") ';' "\\;") ',' "\\,") '"' "\\\"") ':' "\\:"

/-- Characters the WiFi format must escape, per the spec's list. -/
def wifiSpecial (c : Char) : Bool :=
  c = '\\' || c = ';' || c = ',' || c = '"' || c = ':'

/-- Escaping as the spec words it: each character that is one of
`\ ; , " :` is emitted with exactly one backslash in front of it, every
other character is passed through unaltered. -/
def escapeSpec (s : String) : String :=
  String.mk (charMapConcat (fun c => if wifiSpecial c then ['\\', c] else [c]) s.data)

/-- Embedding of `format_wifi` (`formatters.py` lines 11-40).  The Python
truthiness test `if password` on the `str` argument is `password ≠ ""`. -/
def format_wifi (ssid password security : String) (hidden : Bool) : String :=
  let parts : List String :=
    ["T:" ++ security, "S:" ++ escape ssid]
      ++ (if password ≠ "" ∧ security ≠ "NOPASS" then ["P:" ++ escape password] else [])
      ++ (if hidden then ["H:true"] else [])
  "WIFI:" ++ pyJoin ";" parts ++ ";;"

theorem strEq {a b : String} (h : a.data = b.data) : a = b := by
  cases a; cases b; exact congrArg String.mk h

theorem charMapConcat_append (f : Char → List Char) (l₁ l₂ : List Char) :
    charMapConcat f (l₁ ++ l₂) = charMapConcat f l₁ ++ charMapConcat f l₂ := by
  induction l₁ with
  | nil => rfl
  | cons c rest ih => simp [charMapConcat, ih]

theorem charMapConcat_comp (f g : Char → List Char) (l : List Char) :
    charMapConcat g (charMapConcat f l)
      = charMapConcat (fun c => charMapConcat g (f c)) l := by
  induction l with
  | nil => rfl
  | cons c rest ih => simp [charMapConcat, charMapConcat_append, ih]

theorem charMapConcat_congr (f g : Char → List Char) (l : List Char)
    (h : ∀ c, f c = g c) : charMapConcat f l = charMapConcat g l := by
  induction l with
  | nil => rfl
  | cons c rest ih => simp [charMapConcat, h, ih]

@[simp] theorem data_mk (l : List Char) : (String.mk l).data = l := rfl

@[simp] theorem data_empty : ("" : String).data = [] := rfl

/-- C2: the WiFi escaping applied to ssid and password inside
`format_wifi` escapes the backslash first and then `;`, `,`, `"`, `:`,
so that every occurrence of one of the characters `\ ; , " :` from the
input is emitted preceded by exactly one backslash and every other
character is passed through unaltered: the chained `replace` calls agree
with the one-pass per-character escaping map on every input string. -/
theorem escape_escapes_each_special_once (s : String) : escape s = escapeSpec s := by
  apply strEq
  simp only [escape, escapeSpec, pyReplaceChar, data_mk]
  rw [charMapConcat_comp, charMapConcat_comp, charMapConcat_comp, charMapConcat_comp]
  apply charMapConcat_congr
  intro c
  by_cases h1 : c = '\\'
  · subst h1; rfl
  by_cases h2 : c = ';'
  · subst h2; rfl
  by_cases h3 : c = ','
  · subst h3; rfl
  by_cases h4 : c = '"'
  · subst h4; rfl
  by_cases h5 : c = ':'
  · subst h5; rfl
  simp [charMapConcat, wifiSpecial, h1, h2, h3, h4, h5]

/-- C1: `format_wifi` returns `WIFI:` followed by the fields in the fixed
order `T`, `S`, `P`, `H`, separated by `;` and terminated by `;;`, where
the `P:` field is present iff the security is not `NOPASS` and the
password is non-empty, and the `H:true` field is present iff `hidden`. -/
theorem format_wifi_structure (ssid password security : String) (hidden : Bool) :
    format_wifi ssid password security hidden =
      "WIFI:" ++ ("T:" ++ security) ++ ";" ++ ("S:" ++ escape ssid) ++ ";"
        ++ (if password ≠ "" ∧ security ≠ "NOPASS" then "P:" ++ escape password ++ ";" else "")
        ++ (if hidden then "H:true;" else "") ++ ";" := by
  apply strEq
  by_cases hp : password ≠ "" ∧ security ≠ "NOPASS" <;> by_cases hh : hidden <;>
    simp [format_wifi, pyJoin, hp, hh, String.data_append, List.append_assoc]

/-- Model of Python's `str.upper` on its ASCII behaviour. -/
def pyUpper (s : String) : String :=
  String.mk (s.data.map Char.toUpper)

/-- Valid WiFi security types (`validator.py` line 109).  The error
message lists them sorted, so the sorted order is spelled out in the
message below. -/
def validTypes : List String := ["WPA", "WPA2", "WPA3", "WEP", "NOPASS"]

/-- Embedding of `validate_wifi_security` (`validator.py` lines 97-122):
uppercase, map the aliases `NONE`/`OPEN` to `NOPASS`, then require
membership in `validTypes`. -/
def validate_wifi_security (security : String) : Except String String :=
  let su := pyUpper security
  let su := if su = "NONE" ∨ su = "OPEN" then "NOPASS" else su
  if su ∈ validTypes then .ok su
  else .error ("Invalid WiFi security type: '" ++ security
    ++ "'. Must be one of: NOPASS, WEP, WPA, WPA2, WPA3.")

/-- Normalization step of `validate_wifi_security` (uppercase plus alias
mapping), factored out so the claim about it can be stated. -/
def normWifiSec (security : String) : String :=
  let su := pyUpper security
  if su = "NONE" ∨ su = "OPEN" then "NOPASS" else su

/-- Python truthiness of `not password` for `password : Optional[str]`:
true exactly on `None` and the empty string. -/
def pwFalsy : Option String → Bool
  | none => true
  | some s => s = ""

/-- Model of Python's `password or ""` on `Optional[str]`. -/
def pwOrEmpty : Option String → String
  | none => ""
  | some s => s

/-- Embedding of `validate_wifi` (`validator.py` lines 125-162). -/
def validate_wifi (ssid : String) (password : Option String) (security : String) :
    Except String (String × String × String) :=
  if ssid = "" then .error "WiFi SSID cannot be empty"
  else if ssid.length > 32 then
    .error ("WiFi SSID too long (" ++ toString ssid.length
      ++ " chars). Maximum is 32 characters.")
  else
    match validate_wifi_security security with
    | .error e => .error e
    | .ok sec =>
      if sec ≠ "NOPASS" ∧ pwFalsy password then
        .error ("Password is required for " ++ sec
          ++ " security. Use --security nopass for open networks.")
      else
        let password := if sec = "NOPASS" then some "" else password
        .ok (ssid, pwOrEmpty password, sec)

/-- Characters removed by `re.sub(r"[\s\-\.\(\)]", "", phone)` in
`validate_phone` (`validator.py` line 85); `\s` modelled by its ASCII
members. -/
def phoneStripChars : List Char :=
  [' ', '\t', '\n', '\r', '\x0b', '\x0c', '-', '.', '(', ')']

/-- Normalization step of `validate_phone`: remove whitespace, hyphens,
dots and parentheses. -/
def pyStripPhone (s : String) : String :=
  String.mk (s.data.filter (fun c => !phoneStripChars.contains c))

/-- Decidable model of `re.match(r"^\+?\d{7,15}$", s)`: an optional
leading `+` followed by 7 to 15 digits and nothing else (`\d` modelled
by ASCII digits). -/
def phoneMatch (s : String) : Bool :=
  match s.data with
  | [] => false
  | c :: rest =>
    let digits := if c = '+' then rest else c :: rest
    digits.all (fun d => d.isDigit) && decide (7 ≤ digits.length)
      && decide (digits.length ≤ 15)

/-- Embedding of `validate_phone` (`validator.py` lines 69-94). -/
def validate_phone (phone : String) : Except String String :=
  if phone = "" then .error "Phone number cannot be empty"
  else
    let normalized := pyStripPhone phone
    if phoneMatch normalized then .ok normalized
    else .error ("Invalid phone number format: '" ++ phone
      ++ "'. Phone number should contain 7-15 digits, optionally starting with +.")

/-- Characterization of the phone pattern `^\+?\d{7,15}$`: the string is
an optional leading `+` followed by 7 to 15 digits and nothing else. -/
theorem phoneMatch_iff (s : String) :
    phoneMatch s = true ↔
      ∃ d : List Char, (s.data = d ∨ s.data = '+' :: d)
        ∧ (∀ c ∈ d, c.isDigit = true) ∧ 7 ≤ d.length ∧ d.length ≤ 15 := by
  unfold phoneMatch
  cases hs : s.data with
  | nil =>
    simp only [hs]
    constructor
    · intro h; exact absurd h (by simp)
    · rintro ⟨d, hd, _, h7, _⟩
      rcases hd with rfl | h
      · simp at h7
      · simp at h
  | cons c rest =>
    by_cases hc : c = '+'
    · subst hc
      simp only [hs, if_pos rfl, Bool.and_eq_true, List.all_eq_true, decide_eq_true_eq]
      constructor
      · rintro ⟨⟨hdig, h7⟩, h15⟩
        exact ⟨rest, Or.inr rfl, hdig, h7, h15⟩
      · rintro ⟨d, hd, hdig, h7, h15⟩
        rcases hd with hd | hd
        · subst hd
          have := hdig '+' (by simp)
          simp [Char.isDigit] at this
        · injection hd with _ hd'
          subst hd'
          exact ⟨⟨hdig, h7⟩, h15⟩
    · simp only [hs, if_neg hc, Bool.and_eq_true, List.all_eq_true, decide_eq_true_eq]
      constructor
      · rintro ⟨⟨hdig, h7⟩, h15⟩
        exact ⟨c :: rest, Or.inl rfl, hdig, h7, h15⟩
      · rintro ⟨d, hd, hdig, h7, h15⟩
        rcases hd with hd | hd
        · subst hd
          exact ⟨⟨hdig, h7⟩, h15⟩
        · injection hd with hc' _
          exact absurd hc' hc

/-- C4: `validate_wifi_security` uppercases the input, maps `NONE` and
`OPEN` to `NOPASS`, returns the result when it lies in
{WPA, WPA2, WPA3, WEP, NOPASS}, and fails with an error listing the
valid values otherwise; in particular `"open"` maps to `"NOPASS"` and
`"wpa2"` to `"WPA2"`. -/
theorem validate_wifi_security_spec (s : String) :
    (normWifiSec s ∈ validTypes →
      validate_wifi_security s = .ok (normWifiSec s)) ∧
    (normWifiSec s ∉ validTypes →
      validate_wifi_security s = .error ("Invalid WiFi security type: '" ++ s
        ++ "'. Must be one of: NOPASS, WEP, WPA, WPA2, WPA3.")) ∧
    validate_wifi_security "open" = Except.ok "NOPASS" ∧
    validate_wifi_security "wpa2" = Except.ok "WPA2" := by
  refine ⟨fun h => ?_, fun h => ?_, rfl, rfl⟩ <;>
  · simp only [normWifiSec] at h
    simp [validate_wifi_security, normWifiSec, h]

/-- C4 witness: the valid-membership branch applied at `"wep"` and the
error branch applied at `"xyz"`. -/
theorem validate_wifi_security_spec_witness :
    validate_wifi_security "wep" = Except.ok (normWifiSec "wep") ∧
    validate_wifi_security "xyz" = Except.error ("Invalid WiFi security type: '"
      ++ "xyz" ++ "'. Must be one of: NOPASS, WEP, WPA, WPA2, WPA3.") :=
  ⟨(validate_wifi_security_spec "wep").1 (by decide),
   (validate_wifi_security_spec "xyz").2.1 (by decide)⟩

/-- C3: `validate_wifi` rejects an empty ssid and an ssid longer than 32
characters; with a valid ssid it fails with the password-required error
whenever the validated security type is not `NOPASS` and the password is
`None` or empty, and whenever the validated security type is `NOPASS` it
succeeds with the password normalized to the empty string regardless of
the password input. -/
theorem validate_wifi_spec (ssid : String) (pw : Option String) (sec : String) :
    (ssid = "" → validate_wifi ssid pw sec = .error "WiFi SSID cannot be empty") ∧
    (ssid.length > 32 → ∃ e, validate_wifi ssid pw sec = .error e) ∧
    (∀ s, ssid ≠ "" → ssid.length ≤ 32 → validate_wifi_security sec = .ok s →
      s ≠ "NOPASS" → pwFalsy pw = true →
      validate_wifi ssid pw sec = .error ("Password is required for " ++ s
        ++ " security. Use --security nopass for open networks.")) ∧
    (ssid ≠ "" → ssid.length ≤ 32 → validate_wifi_security sec = .ok "NOPASS" →
      validate_wifi ssid pw sec = .ok (ssid, "", "NOPASS")) := by
  refine ⟨fun h => ?_, fun h => ?_, fun s hne hle hsec hs hpw => ?_, fun hne hle hsec => ?_⟩
  · simp [validate_wifi, h]
  · by_cases he : ssid = ""
    · exact ⟨"WiFi SSID cannot be empty", by simp [validate_wifi, he]⟩
    · exact ⟨"WiFi SSID too long (" ++ toString ssid.length
        ++ " chars). Maximum is 32 characters.", by simp [validate_wifi, he, h]⟩
  · have h32 : ¬ ssid.length > 32 := by omega
    simp [validate_wifi, hne, h32, hsec, hs, hpw]
  · have h32 : ¬ ssid.length > 32 := by omega
    simp [validate_wifi, hne, h32, hsec, pwOrEmpty, pwFalsy]

/-- C3 witness: a WPA network with no password is rejected with the
password-required error, and an open (`nopass`) network with no password
succeeds with the empty password. -/
theorem validate_wifi_spec_witness :
    validate_wifi "ssid" none "WPA" = .error ("Password is required for "
      ++ "WPA" ++ " security. Use --security nopass for open networks.") ∧
    validate_wifi "ssid" none "nopass" = .ok ("ssid", "", "NOPASS") :=
  ⟨(validate_wifi_spec "ssid" none "WPA").2.2.1 "WPA" (by decide) (by decide) rfl
      (by decide) (by decide),
   (validate_wifi_spec "ssid" none "nopass").2.2.2 (by decide) (by decide) rfl⟩

/-- C5: `validate_phone` fails on the empty string; otherwise it strips
whitespace, hyphens, dots and parentheses and fails unless the stripped
result matches an optional `+` followed by 7 to 15 digits, in which case
it returns the normalized string.  The final conjunct characterizes the
pattern match itself. -/
theorem validate_phone_spec (p : String) :
    (p = "" → validate_phone p = .error "Phone number cannot be empty") ∧
    (p ≠ "" → phoneMatch (pyStripPhone p) = true →
      validate_phone p = .ok (pyStripPhone p)) ∧
    (p ≠ "" → phoneMatch (pyStripPhone p) = false →
      validate_phone p = .error ("Invalid phone number format: '" ++ p
        ++ "'. Phone number should contain 7-15 digits, optionally starting with +.")) ∧
    (phoneMatch (pyStripPhone p) = true ↔
      ∃ d : List Char, ((pyStripPhone p).data = d ∨ (pyStripPhone p).data = '+' :: d)
        ∧ (∀ c ∈ d, c.isDigit = true) ∧ 7 ≤ d.length ∧ d.length ≤ 15) := by
  refine ⟨fun h => ?_, fun h hm => ?_, fun h hm => ?_, phoneMatch_iff _⟩
  · simp [validate_phone, h]
  · simp [validate_phone, h, hm]
  · simp [validate_phone, h, hm]

/-- C5 witness: the spec's two examples, a formatted US number that
normalizes to its digits and a non-numeric string that is rejected. -/
theorem validate_phone_spec_witness :
    validate_phone "(555) 123-4567" = .ok "5551234567" ∧
    validate_phone "abc" = .error ("Invalid phone number format: '" ++ "abc"
      ++ "'. Phone number should contain 7-15 digits, optionally starting with +.") :=
  ⟨((validate_phone_spec "(555) 123-4567").2.1 (by decide) (by decide)).trans
      (congrArg Except.ok (by decide)),
   (validate_phone_spec "abc").2.2.1 (by decide) (by decide)⟩

/-- ASCII members of Python's whitespace class used by `str.strip()` and
`str.split()`. -/
def pyIsSpace (c : Char) : Bool :=
  c = ' ' || c = '\t' || c = '\n' || c = '\r' || c = '\x0b' || c = '\x0c'

/-- Model of Python's `str.strip()`: drop whitespace from both ends. -/
def pyStrip (s : String) : String :=
  String.mk (((s.data.dropWhile pyIsSpace).reverse.dropWhile pyIsSpace).reverse)

/-- Worker for `pySplitWS`: accumulates the current token (reversed) and
splits at whitespace runs, discarding empty tokens, exactly like
Python's `str.split()` with no argument. -/
def wsSplitAux : List Char → List Char → List (List Char)
  | [], acc => if acc = [] then [] else [acc.reverse]
  | c :: rest, acc =>
    if pyIsSpace c then
      if acc = [] then wsSplitAux rest [] else acc.reverse :: wsSplitAux rest []
    else wsSplitAux rest (c :: acc)

/-- Model of Python's `str.split()` (split on whitespace runs, no empty
tokens). -/
def pySplitWS (s : String) : List String :=
  (wsSplitAux s.data []).map String.mk

/-- Python truthiness gate used for every optional vCard field: a field
contributes its line exactly when it is not `None` and not empty. -/
def vcardOpt (o : Option String) (f : String → String) : List String :=
  match o with
  | none => []
  | some v => if v = "" then [] else [f v]

/-- Embedding of `format_vcard` (`formatters.py` lines 43-109). -/
def format_vcard (name : String) (phone email organization title url address note :
    Option String) : String :=
  let nameParts := pySplitWS (pyStrip name)
  let nLine :=
    if nameParts.length ≥ 2 then
      "N:" ++ nameParts.getLastD "" ++ ";" ++ pyJoin " " nameParts.dropLast ++ ";;;"
    else "N:" ++ name ++ ";;;;"
  let lines :=
    ["BEGIN:VCARD", "VERSION:3.0", nLine, "FN:" ++ name]
      ++ vcardOpt organization (fun v => "ORG:" ++ v)
      ++ vcardOpt title (fun v => "TITLE:" ++ v)
      ++ vcardOpt phone (fun v => "TEL;TYPE=CELL:" ++ v)
      ++ vcardOpt email (fun v => "EMAIL:" ++ v)
      ++ vcardOpt url (fun v => "URL:" ++ v)
      ++ vcardOpt address (fun v => "ADR:;;" ++ v ++ ";;;;")
      ++ vcardOpt note (fun v => "NOTE:" ++ v)
      ++ ["END:VCARD"]
  pyJoin "\n" lines

/-- UTF-8 encoding of a unicode scalar value as a byte list, as Python's
`str.encode` produces before percent-encoding. -/
def utf8Bytes (c : Char) : List Nat :=
  let n := c.toNat
  if n < 0x80 then [n]
  else if n < 0x800 then
    [0xC0 + n / 64, 0x80 + n % 64]
  else if n < 0x10000 then
    [0xE0 + n / 4096, 0x80 + (n / 64) % 64, 0x80 + n % 64]
  else
    [0xF0 + n / 262144, 0x80 + (n / 4096) % 64, 0x80 + (n / 64) % 64, 0x80 + n % 64]

/-- Uppercase hexadecimal digit, as `urllib.parse.quote` emits. -/
def hexDig (n : Nat) : Char :=
  if n < 10 then Char.ofNat (48 + n) else Char.ofNat (55 + n)

/-- Bytes `urllib.parse.quote` leaves unescaped when called with
`safe=''` (as `urlencode(quote_via=quote)` does): ASCII alphanumerics
and `_ . - ~`. -/
def quoteSafeByte (b : Nat) : Bool :=
  (0x41 ≤ b && b ≤ 0x5A) || (0x61 ≤ b && b ≤ 0x7A) || (0x30 ≤ b && b ≤ 0x39)
    || b = 0x5F || b = 0x2E || b = 0x2D || b = 0x7E

/-- Model of `urllib.parse.quote(s, safe='')`: percent-encode every
UTF-8 byte outside the always-safe set, with uppercase hex digits. -/
def pyQuote (s : String) : String :=
  String.mk (charMapConcat
    (fun c => (utf8Bytes c).flatMap
      (fun b => if quoteSafeByte b then [Char.ofNat b] else ['%', hexDig (b / 16), hexDig (b % 16)]))
    s.data)

/-- Python truthiness gate of `format_email`: a query parameter is added
exactly when the field is not `None` and not empty. -/
def emailOpt (key : String) (o : Option String) : List (String × String) :=
  match o with
  | none => []
  | some v => if v = "" then [] else [(key, v)]

/-- Embedding of `format_email` (`formatters.py` lines 112-149); the
query string is `urlencode(params, quote_via=quote)`: `&`-joined
`quote(k)=quote(v)` pairs in insertion order subject, body, cc, bcc. -/
def format_email (address : String) (subject body cc bcc : Option String) : String :=
  let params := emailOpt "subject" subject ++ emailOpt "body" body
    ++ emailOpt "cc" cc ++ emailOpt "bcc" bcc
  if params = [] then "mailto:" ++ address
  else "mailto:" ++ address ++ "?"
    ++ pyJoin "&" (params.map (fun kv => pyQuote kv.1 ++ "=" ++ pyQuote kv.2))

/-- C6: `format_vcard` emits lines in the fixed order `BEGIN:VCARD`,
`VERSION:3.0`, the structured `N:` line, `FN:<name>`, then `ORG`,
`TITLE`, `TEL;TYPE=CELL`, `EMAIL`, `URL`, `ADR`, `NOTE` for each present
optional field in that order, then `END:VCARD`, joined with newlines;
the `N:` line is `N:<surname>;<given>;;;` with the last
whitespace-separated token as surname and the remaining tokens joined by
a space as given name when the name has at least two tokens, and
`N:<name>;;;;` otherwise.  The second conjunct is the spec's example. -/
theorem format_vcard_spec (name : String)
    (phone email organization title url address note : Option String) :
    (format_vcard name phone email organization title url address note =
      pyJoin "\n"
        (["BEGIN:VCARD", "VERSION:3.0",
          (if (pySplitWS (pyStrip name)).length ≥ 2 then
            "N:" ++ (pySplitWS (pyStrip name)).getLastD "" ++ ";"
              ++ pyJoin " " (pySplitWS (pyStrip name)).dropLast ++ ";;;"
          else "N:" ++ name ++ ";;;;"),
          "FN:" ++ name]
          ++ vcardOpt organization (fun v => "ORG:" ++ v)
          ++ vcardOpt title (fun v => "TITLE:" ++ v)
          ++ vcardOpt phone (fun v => "TEL;TYPE=CELL:" ++ v)
          ++ vcardOpt email (fun v => "EMAIL:" ++ v)
          ++ vcardOpt url (fun v => "URL:" ++ v)
          ++ vcardOpt address (fun v => "ADR:;;" ++ v ++ ";;;;")
          ++ vcardOpt note (fun v => "NOTE:" ++ v)
          ++ ["END:VCARD"])) ∧
    format_vcard "John Smith" none none none none none none none =
      "BEGIN:VCARD\nVERSION:3.0\nN:Smith;John;;;\nFN:John Smith\nEND:VCARD" :=
  ⟨rfl, by decide⟩

/-- C7: `format_email` returns the plain `mailto:<address>` when none of
subject, body, cc, bcc is present (not `None` and non-empty), and
otherwise `mailto:<address>?` followed by `&`-joined `key=value` pairs
whose keys appear in the fixed order subject, body, cc, bcc (only
present ones) with each key and value percent-encoded; the last conjunct
is the spec's example, in which the space of the subject is
percent-encoded as `%20`. -/
theorem format_email_spec (address : String) (subject body cc bcc : Option String) :
    (format_email address subject body cc bcc =
      (if emailOpt "subject" subject ++ emailOpt "body" body
          ++ emailOpt "cc" cc ++ emailOpt "bcc" bcc = [] then
        "mailto:" ++ address
      else "mailto:" ++ address ++ "?"
        ++ pyJoin "&" ((emailOpt "subject" subject ++ emailOpt "body" body
            ++ emailOpt "cc" cc ++ emailOpt "bcc" bcc).map
          (fun kv => pyQuote kv.1 ++ "=" ++ pyQuote kv.2)))) ∧
    format_email "a@b.c" (some "Hi there") none none none =
      "mailto:a@b.c?subject=Hi%20there" :=
  ⟨rfl, by decide⟩

/-- Model of Python's `str.lower` on its ASCII behaviour. -/
def pyLower (s : String) : String :=
  String.mk (s.data.map Char.toLower)

/-- Model of Python's `str.lstrip(c)` for a single character. -/
def pyLstripChar (c : Char) (s : String) : String :=
  String.mk (s.data.dropWhile (fun x => x == c))

/-- Model of CPython's `PurePath.suffix` on the final path component:
with `i = name.rfind('.')`, the suffix is `name[i:]` when
`0 < i < len(name) - 1` and empty otherwise.  Here `e` is the run of
non-dot characters at the end of the name, so the dot (when one exists)
sits at index `len(name) - len(e) - 1`. -/
def suffixChars (l : List Char) : List Char :=
  let e := (l.reverse.takeWhile (fun c => c != '.')).reverse
  if e.length = l.length then []
  else if 0 < l.length - e.length - 1 ∧ e ≠ [] then '.' :: e else []

/-- Suffix of the final component of an output path. -/
def pathSuffix (name : String) : String :=
  String.mk (suffixChars name.data)

/-- Model of CPython's `PurePath.with_suffix` on the final path
component: raises `ValueError` on an empty name, otherwise removes the
old suffix (if any) and appends the new one. -/
def withSuffix (name : String) (suffix : String) : Except String String :=
  if name = "" then .error "ValueError: empty name"
  else if pathSuffix name = "" then .ok (name ++ suffix)
  else .ok (String.mk (name.data.take (name.data.length - (pathSuffix name).data.length))
    ++ suffix)

/-- Output format resolution of `generate_qr` (`generator.py` lines
32-36): the lowercased override when given, else the path's suffix
lowercased and stripped of leading dots. -/
def resolveFormat (name : String) (override : Option String) : String :=
  match override with
  | some f => pyLower f
  | none => pyLstripChar '.' (pyLower (pathSuffix name))

/-- Embedding of the output-path logic of `generate_qr` (`generator.py`
lines 32-73), acting on the final component of the output path.  The QR
matrix construction and image rendering are calls into the external
`qrcode` library and do not affect the returned path; `data` is carried
to mirror the source signature. -/
def generate_qr (data name : String) (override : Option String) : Except String String :=
  let _ := data
  if resolveFormat name override = "svg" then
    if pyLower (pathSuffix name) ≠ ".svg" then withSuffix name ".svg" else .ok name
  else
    if pyLower (pathSuffix name) ≠ ".png" then withSuffix name ".png" else .ok name

theorem takeWhile_append_of_all {p : Char → Bool} (xs : List Char) (y : Char)
    (ys : List Char) (hxs : ∀ x ∈ xs, p x = true) (hy : p y = false) :
    (xs ++ y :: ys).takeWhile p = xs := by
  induction xs with
  | nil => simp [List.takeWhile_cons, hy]
  | cons a rest ih =>
    have ha : p a = true := hxs a (by simp)
    simp only [List.cons_append, List.takeWhile_cons, ha, if_pos]
    rw [ih (fun x hx => hxs x (by simp [hx]))]

theorem suffixChars_append (base ext : List Char) (hb : base ≠ [])
    (he : ext ≠ []) (hdot : '.' ∉ ext) :
    suffixChars (base ++ '.' :: ext) = '.' :: ext := by
  unfold suffixChars
  have hrev : (base ++ '.' :: ext).reverse = ext.reverse ++ '.' :: base.reverse := by
    simp
  have hall : ∀ x ∈ ext.reverse, (x != '.') = true := by
    intro x hx
    have : x ∈ ext := List.mem_reverse.mp hx
    have hxne : x ≠ '.' := fun hcontra => hdot (hcontra ▸ this)
    simp [hxne]
  rw [hrev, takeWhile_append_of_all ext.reverse '.' base.reverse hall (by simp)]
  simp only [List.reverse_reverse]
  have hlen : (base ++ '.' :: ext).length = base.length + ext.length + 1 := by
    simp [List.length_append]; omega
  have hbpos : 0 < base.length := List.length_pos.mpr hb
  rw [if_neg (by omega), if_pos ⟨by omega, he⟩]

theorem suffixChars_length_lt (l : List Char) (h : suffixChars l ≠ []) :
    (suffixChars l).length < l.length := by
  unfold suffixChars at *
  by_cases h1 : ((l.reverse.takeWhile (fun c => c != '.')).reverse).length = l.length
  · simp only [if_pos h1] at h
    exact absurd rfl h
  · by_cases h2 : 0 < l.length - ((l.reverse.takeWhile (fun c => c != '.')).reverse).length - 1
      ∧ (l.reverse.takeWhile (fun c => c != '.')).reverse ≠ []
    · simp only [if_neg h1, if_pos h2, List.length_cons]
      omega
    · simp only [if_neg h1, if_neg h2] at h
      exact absurd rfl h

theorem data_ne_nil_of_ne_empty {s : String} (h : s ≠ "") : s.data ≠ [] := by
  intro hd
  exact h (strEq (by rw [hd, data_empty]))

theorem withSuffix_pathSuffix (name ext : String) (p : String)
    (e : List Char) (hed : ext.data = '.' :: e) (hene : e ≠ []) (hdot : '.' ∉ e)
    (h : withSuffix name ext = .ok p) :
    pathSuffix p = ext := by
  by_cases hn : name = ""
  · rw [withSuffix, if_pos hn] at h
    exact absurd h (by simp)
  by_cases hps : pathSuffix name = ""
  · rw [withSuffix, if_neg hn, if_pos hps] at h
    injection h with h'
    subst h'
    apply strEq
    simp only [pathSuffix, data_mk, String.data_append, hed]
    exact suffixChars_append name.data e (data_ne_nil_of_ne_empty hn) hene hdot
  · rw [withSuffix, if_neg hn, if_neg hps] at h
    injection h with h'
    subst h'
    apply strEq
    simp only [pathSuffix, data_mk, String.data_append, hed]
    refine suffixChars_append _ e ?_ hene hdot
    have hlt : (suffixChars name.data).length < name.data.length :=
      suffixChars_length_lt _ (fun hc => hps (strEq (by rw [pathSuffix, data_mk, hc, data_empty])))
    intro hc
    have := congrArg List.length hc
    rw [List.length_take] at this
    simp only [pathSuffix, data_mk, List.length_nil] at this
    omega

/-- C8 counterexample: with output name `out.PNG` and no override the
resolved format is `png`, but the returned path keeps the uppercase
extension `.PNG`, which is not the extension `.png` the claim requires
in the non-svg case. -/
theorem generate_qr_extension_counterexample :
    generate_qr "x" "out.PNG" none = .ok "out.PNG" ∧
    resolveFormat "out.PNG" none ≠ "svg" ∧
    pathSuffix "out.PNG" ≠ ".png" :=
  ⟨rfl, by decide, by decide⟩

/-- C8 amended: whenever `generate_qr` returns a path, the lowercased
extension of that path matches the resolved output format (`.svg` when
the resolved format is svg, `.png` otherwise); the match is
case-insensitive because the source compares lowercased suffixes before
coercing. -/
theorem generate_qr_extension (data name : String) (override : Option String)
    (p : String) (h : generate_qr data name override = .ok p) :
    pyLower (pathSuffix p) =
      (if resolveFormat name override = "svg" then ".svg" else ".png") := by
  unfold generate_qr at h
  by_cases hf : resolveFormat name override = "svg"
  · rw [if_pos hf] at h
    rw [if_pos hf]
    by_cases hs : pyLower (pathSuffix name) = ".svg"
    · rw [if_neg (not_not_intro hs)] at h
      injection h with h'
      subst h'
      exact hs
    · rw [if_pos hs] at h
      rw [withSuffix_pathSuffix name ".svg" p ['s', 'v', 'g'] rfl (by decide) (by decide) h]
      decide
  · rw [if_neg hf] at h
    rw [if_neg hf]
    by_cases hs : pyLower (pathSuffix name) = ".png"
    · rw [if_neg (not_not_intro hs)] at h
      injection h with h'
      subst h'
      exact hs
    · rw [if_pos hs] at h
      rw [withSuffix_pathSuffix name ".png" p ['p', 'n', 'g'] rfl (by decide) (by decide) h]
      decide

/-- C8 amended witness: a `.txt` output name is coerced to `.png`, whose
lowercased suffix matches the resolved format. -/
theorem generate_qr_extension_witness :
    generate_qr "x" "out.txt" none = .ok "out.png" ∧
    pyLower (pathSuffix "out.png")
      = (if resolveFormat "out.txt" none = "svg" then ".svg" else ".png") :=
  ⟨rfl, generate_qr_extension "x" "out.txt" none "out.png" rfl⟩

/-- History entry as stored in `history.json` (`history.py` lines
72-80); `createdAt` is optional because entries read back from disk may
lack the key (`get_entries` sorts with `x.get("created_at", "")`). -/
structure HistoryEntry where
  id : String
  type : String
  command : String
  outputPath : String
  createdAt : Option String
deriving DecidableEq

/-- Sort key of `get_entries`: `x.get("created_at", "")`. -/
def entrySortKey (e : HistoryEntry) : String :=
  e.createdAt.getD ""

/-- Embedding of `add_entry` (`history.py` lines 53-85) on the stored
entries list: the freshly built entry is appended at the end.  The
random id and the current timestamp are inputs of the model, carried
inside the entry. -/
def add_entry (e : HistoryEntry) (entries : List HistoryEntry) : List HistoryEntry :=
  entries ++ [e]

/-- Model of the Python slice `entries[:n]` for an `int` bound `n`:
a nonnegative bound keeps the first `n` entries, a negative bound drops
the last `-n`. -/
def pySliceTo (n : Int) (l : List HistoryEntry) : List HistoryEntry :=
  if 0 ≤ n then l.take n.toNat else l.take (l.length - (-n).toNat)

/-- Lexicographic comparison of strings by code point, Python's `<=` on
`str`, written as structural recursion on the character lists. -/
def strLeB : List Char → List Char → Bool
  | [], _ => true
  | _ :: _, [] => false
  | a :: as, b :: bs => if a = b then strLeB as bs else decide (a < b)

/-- Stable descending insertion of an entry into an already sorted list:
the entry goes in front of the first element whose key is not greater,
so among equal keys earlier elements stay first, as Python's stable sort
guarantees. -/
def insertByKeyDesc (e : HistoryEntry) : List HistoryEntry → List HistoryEntry
  | [] => [e]
  | x :: xs =>
    if strLeB (entrySortKey x).data (entrySortKey e).data then e :: x :: xs
    else x :: insertByKeyDesc e xs

/-- Model of `entries.sort(key=lambda x: x.get("created_at", ""),
reverse=True)`: a stable sort descending by key.  Python guarantees
stability, and a stable sort's output is uniquely determined by
sortedness plus stability, so this stable insertion sort computes the
same list. -/
def sortByCreatedDesc (l : List HistoryEntry) : List HistoryEntry :=
  l.foldr insertByKeyDesc []

/-- Embedding of `get_entries` (`history.py` lines 88-106): stable sort
by `created_at` descending (Python's `sort(key=..., reverse=True)`),
then `entries[:limit]` guarded by the truthiness test `if limit:`, under
which both `None` and `0` skip the slicing. -/
def get_entries (limit : Option Int) (entries : List HistoryEntry) : List HistoryEntry :=
  let sorted := sortByCreatedDesc entries
  match limit with
  | none => sorted
  | some n => if n ≠ 0 then pySliceTo n sorted else sorted

/-- Embedding of `clear_history` (`history.py` lines 127-139): returns
the number of stored entries and empties the list. -/
def clear_history (entries : List HistoryEntry) : Nat × List HistoryEntry :=
  (entries.length, [])

theorem foldl_add_entry (es : List HistoryEntry) (init : List HistoryEntry) :
    es.foldl (fun st e => add_entry e st) init = init ++ es := by
  induction es generalizing init with
  | nil => simp
  | cons e rest ih =>
    rw [List.foldl_cons, ih]
    simp [add_entry]

/-- C9: starting from the empty history, appending N entries and then
clearing returns N, and after the clear `get_entries` returns the empty
list for every limit. -/
theorem clear_history_spec (es : List HistoryEntry) (limit : Option Int) :
    (clear_history (es.foldl (fun st e => add_entry e st) [])).1 = es.length ∧
    get_entries limit (clear_history (es.foldl (fun st e => add_entry e st) [])).2 = [] := by
  constructor
  · rw [foldl_add_entry]
    simp [clear_history]
  · have hnil : sortByCreatedDesc [] = [] := rfl
    cases limit with
    | none => simp [clear_history, get_entries, hnil]
    | some n => simp [clear_history, get_entries, pySliceTo, hnil]

theorem length_insertByKeyDesc (e : HistoryEntry) (l : List HistoryEntry) :
    (insertByKeyDesc e l).length = l.length + 1 := by
  induction l with
  | nil => rfl
  | cons x xs ih =>
    unfold insertByKeyDesc
    by_cases h : strLeB (entrySortKey x).data (entrySortKey e).data = true
    · simp [h]
    · simp [h, ih]

theorem length_sortByCreatedDesc (l : List HistoryEntry) :
    (sortByCreatedDesc l).length = l.length := by
  induction l with
  | nil => rfl
  | cons x xs ih =>
    simp [sortByCreatedDesc, List.foldr_cons, length_insertByKeyDesc] at *
    omega

/-- C10: `get_entries` with limit 0 returns exactly what it returns with
no limit (all entries, sorted), in particular a list of the same length
as the stored history rather than an empty one. -/
theorem get_entries_zero_limit (entries : List HistoryEntry) :
    get_entries (some 0) entries = get_entries none entries ∧
    (get_entries (some 0) entries).length = entries.length := by
  constructor
  · simp [get_entries]
  · simp [get_entries, length_sortByCreatedDesc]

end QrGen
